import Mathlib

/-!
Shallow embedding of `src/scripts/start.py`, the local process supervisor of
the nullspace repository.  External operating-system effects (signal delivery,
liveness probes, the wall clock, the file system, the `pgrep` listing tool)
are abstracted into explicit environment records; each supervisor operation is
translated into a pure Lean function that returns the trace of externally
visible events it performs, so that the spec's lifecycle claims can be stated
and proved about those traces.
-/

namespace Nullspace

/-- Outcome of the non-destructive liveness probe `os.kill(pid, 0)`:
it either succeeds, raises `ProcessLookupError`, or raises `PermissionError`. -/
inductive ProbeResult
  | ok
  | noSuchProcess
  | permissionDenied
deriving DecidableEq

/-- Model of `pid_exists` from `start.py`: `os.kill(pid, 0)`; `ProcessLookupError`
means dead, `PermissionError` is treated as alive. -/
def pid_exists (r : ProbeResult) : Bool :=
  match r with
  | .ok => true
  | .noSuchProcess => false
  | .permissionDenied => true

/-- Externally visible events of the terminator: a liveness probe of `pid`,
a delivered SIGTERM, or a delivered SIGKILL. -/
inductive Event
  | probe (pid : Int)
  | sigterm (pid : Int)
  | sigkill (pid : Int)
deriving DecidableEq

/-- Outcome of an actual signal send `os.kill(pid, SIGTERM)` or
`os.kill(pid, SIGKILL)`: the signal is delivered, or the send raises
`ProcessLookupError` (the only exception `terminate_pid` catches), or it
raises `PermissionError` — which `terminate_pid` does not catch, so that
exception propagates to the caller. -/
inductive SendResult
  | delivered
  | noSuchProcess
  | permissionDenied
deriving DecidableEq

/-- Abstract operating-system environment for the terminator.
`probeAt pid k` is the outcome of the k-th liveness probe of `pid`;
`termSend pid` (resp. `killSend pid`) is the outcome of the SIGTERM
(resp. SIGKILL) send; `polls pid` is the number of poll-loop iterations that
fit inside the 2.0 s timeout at the fixed 0.1 s interval (real-time
dependent, hence abstract). -/
structure Kernel where
  probeAt : Int → Nat → ProbeResult
  termSend : Int → SendResult
  killSend : Int → SendResult
  polls : Int → Nat

/-- Result of a fallible OS interaction: `Except.ok evs` is a normal return
after performing the events `evs`; `Except.error evs` is an uncaught
exception propagating to the caller after performing `evs`. -/
def consEvent (e : Event) :
    Except (List Event) (List Event) → Except (List Event) (List Event)
  | .ok evs => .ok (e :: evs)
  | .error evs => .error (e :: evs)

/-- Events performed by a fallible operation, whether it returned normally
or raised. -/
def runTrace : Except (List Event) (List Event) → List Event
  | .ok evs => evs
  | .error evs => evs

/-- The `while time.time() - start < timeout` poll loop of `terminate_pid`:
each iteration probes once and returns if the process is gone; when the
timeout elapses a SIGKILL is sent — `ProcessLookupError` there is caught
(plain return), but `PermissionError` propagates. -/
def termLoop (K : Kernel) (pid : Int) :
    Nat → Nat → Except (List Event) (List Event)
  | _, 0 =>
    match K.killSend pid with
    | .delivered => .ok [Event.sigkill pid]
    | .noSuchProcess => .ok []
    | .permissionDenied => .error []
  | i, fuel + 1 =>
    if pid_exists (K.probeAt pid i) then
      consEvent (Event.probe pid) (termLoop K pid (i + 1) fuel)
    else .ok [Event.probe pid]

/-- Model of `terminate_pid` from `start.py`: return immediately when the
initial probe says the process is gone; otherwise send SIGTERM — catching
only `ProcessLookupError` (return), while `PermissionError` propagates —
then poll liveness until the timeout and finally send SIGKILL. -/
def terminate_pid (K : Kernel) (pid : Int) :
    Except (List Event) (List Event) :=
  if pid_exists (K.probeAt pid 0) then
    match K.termSend pid with
    | .noSuchProcess => .ok [Event.probe pid]
    | .permissionDenied => .error [Event.probe pid]
    | .delivered =>
      consEvent (Event.probe pid)
        (consEvent (Event.sigterm pid) (termLoop K pid 1 (K.polls pid)))
  else .ok [Event.probe pid]

/-- A kernel in which every process is already gone. -/
def deadKernel : Kernel :=
  ⟨fun _ _ => ProbeResult.noSuchProcess, fun _ => SendResult.delivered,
    fun _ => SendResult.delivered, fun _ => 0⟩

/-- A kernel in which every process survives every probe and every send is
delivered; the timeout window fits two poll iterations. -/
def stubbornKernel : Kernel :=
  ⟨fun _ _ => ProbeResult.ok, fun _ => SendResult.delivered,
    fun _ => SendResult.delivered, fun _ => 2⟩

/-- A kernel in which every process exists but belongs to another user:
probes report `PermissionError` (counted alive) and every signal send
raises `PermissionError` (uncaught). -/
def protectedKernel : Kernel :=
  ⟨fun _ _ => ProbeResult.permissionDenied, fun _ => SendResult.permissionDenied,
    fun _ => SendResult.permissionDenied, fun _ => 0⟩

/-- ASCII whitespace as recognized by Python's `str.strip()` / `str.split()`
(the marker files and `pgrep` output written by this program are ASCII). -/
def isPySpace (c : Char) : Bool :=
  c == ' ' || c == '\t' || c == '\n' || c == '\r' || c == '\x0b' || c == '\x0c'

/-- ASCII decimal digit, as accepted by Python's `int()` and `str.isdigit()`
on the ASCII content this program produces. -/
def isPyDigit (c : Char) : Bool :=
  decide ('0' ≤ c) && decide (c ≤ '9')

/-- Numeric value of a decimal digit character. -/
def digitVal (c : Char) : Nat :=
  c.toNat - '0'.toNat

/-- Digit consumer of Python's `int()` after at least one digit has been read:
an underscore is legal only between two digits (Python 3 numeric literals). -/
def parseDigitsGo : List Char → Nat → Option Nat
  | [], acc => some acc
  | c :: cs, acc =>
    if c = '_' then
      match cs with
      | c2 :: cs2 =>
        if isPyDigit c2 then parseDigitsGo cs2 (acc * 10 + digitVal c2) else none
      | [] => none
    else if isPyDigit c then parseDigitsGo cs (acc * 10 + digitVal c) else none

/-- Unsigned digit string accepted by Python's `int()`: nonempty, starts with
a digit, underscores only between digits. -/
def parseDigits : List Char → Option Nat
  | [] => none
  | c :: cs => if isPyDigit c then parseDigitsGo cs (digitVal c) else none

/-- Python's `str.strip()`: drop whitespace from both ends. -/
def pyStrip (cs : List Char) : List Char :=
  ((cs.dropWhile isPySpace).reverse.dropWhile isPySpace).reverse

/-- Python's `int(s)` on a string: strip surrounding whitespace, then an
optional sign followed by a digit string; `none` models `ValueError`. -/
def parsePyInt (s : String) : Option Int :=
  match pyStrip s.data with
  | [] => none
  | c :: cs =>
    if c = '-' then (parseDigits cs).map (fun n => -(n : Int))
    else if c = '+' then (parseDigits cs).map (fun n => (n : Int))
    else (parseDigits (c :: cs)).map (fun n => (n : Int))

/-- Value of a digit string read most-significant first, used to relate the
parser to `Nat.toDigits`. -/
def digitsFold (acc : Nat) (cs : List Char) : Nat :=
  cs.foldl (fun a c => a * 10 + digitVal c) acc

/-- Model of `kill_pidfile` from `start.py`, on the content of one marker
file (`none` = the file does not exist).  The identifier is parsed with
`int(path.read_text().strip())`, `ValueError` yields `None`; a `None` or `0`
identifier is falsy so no termination is attempted.  When `terminate_pid`
returns normally the marker file is unlinked; when it raises (uncaught
`PermissionError`), the exception propagates before `path.unlink()` and the
marker survives.  Each side carries the marker content afterwards and the
event trace. -/
def kill_pidfile (K : Kernel) (content : Option String) :
    Except (Option String × List Event) (Option String × List Event) :=
  match content with
  | none => .ok (none, [])
  | some text =>
    match parsePyInt text with
    | some pid =>
      if pid = 0 then .ok (none, [])
      else
        match terminate_pid K pid with
        | .ok evs => .ok (none, evs)
        | .error evs => .error (some text, evs)
    | none => .ok (none, [])

/-- Worker for Python's `str.split()` with no separator: split on runs of
whitespace, dropping empty chunks; `acc` holds the current word reversed. -/
def splitWordsGo : List Char → List Char → List String
  | [], acc => if acc.isEmpty then [] else [List.asString acc.reverse]
  | c :: cs, acc =>
    if isPySpace c then
      if acc.isEmpty then splitWordsGo cs []
      else List.asString acc.reverse :: splitWordsGo cs []
    else splitWordsGo cs (c :: acc)

/-- Python's `str.split()` with no separator. -/
def pySplit (s : String) : List String :=
  splitWordsGo s.data []

/-- Python's `str.isdigit()` on ASCII content: nonempty and all digits. -/
def pyIsdigit (s : String) : Bool :=
  !s.data.isEmpty && s.data.all isPyDigit

/-- Outcome of `subprocess.run(["pgrep", "-f", pattern], ..., check=False)`:
either the `pgrep` binary is absent — in which case `subprocess.run` raises
`FileNotFoundError` even with `check=False` — or it ran and produced a
return code and stdout text. -/
inductive PgrepResult
  | toolMissing
  | ran (returncode : Int) (stdout : String)

/-- The `for token in result.stdout.split()` loop of `kill_by_pattern`:
terminate each parsed identifier in turn; an uncaught exception from
`terminate_pid` aborts the loop and propagates. -/
def killTokens (K : Kernel) : List String → Except (List Event) (List Event)
  | [] => .ok []
  | tok :: rest =>
    match parsePyInt tok with
    | none => killTokens K rest
    | some pid =>
      match terminate_pid K pid with
      | .error evs => .error evs
      | .ok evs =>
        match killTokens K rest with
        | .ok evs2 => .ok (evs ++ evs2)
        | .error evs2 => .error (evs ++ evs2)

/-- Model of `kill_by_pattern` from `start.py`: run `pgrep -f pattern`; a
missing binary raises `FileNotFoundError` before any event (modelled as
`Except.error []`), a nonzero return code returns silently, otherwise each
whitespace token of stdout that `isdigit()` accepts is terminated via
`terminate_pid` (whose uncaught exceptions propagate). -/
def kill_by_pattern (K : Kernel) (res : PgrepResult) :
    Except (List Event) (List Event) :=
  match res with
  | .toolMissing => .error []
  | .ran rc out =>
    if rc ≠ 0 then .ok []
    else killTokens K ((pySplit out).filter pyIsdigit)

/-- The marker-file write of `start_process`:
`PIDS[name].write_text(str(proc.pid))` — the literal decimal identifier. -/
def writePidMarker (pid : Nat) : String :=
  Nat.repr pid

/-- The marker-file read of `kill_pidfile`:
`int(path.read_text().strip())`, `ValueError` treated as absent. -/
def readPidMarker (text : String) : Option Int :=
  parsePyInt text

/-- Abstract environment of one `tail_file` tailer, indexed by poll cycles
(one cycle = one 0.2 s sleep): whether the log file exists at cycle `t`,
whether the shared stop event is set at cycle `t`, how many complete lines
the sink holds at cycle `t` (the child's appends are modelled at line
granularity, matching `readline`), and the text of the i-th line. -/
structure TailEnv where
  ex : Nat → Bool
  stop : Nat → Bool
  lineCount : Nat → Nat
  lineAt : Nat → String

/-- The `while not path.exists() and not stop_event.is_set()` wait loop of
`tail_file`, followed by the `if stop_event.is_set(): return` check: returns
the attach cycle, or `none` when the stop flag was observed first (or the
observation window `fuel` ran out before the file appeared). -/
def tail_wait (env : TailEnv) : Nat → Nat → Option Nat
  | 0, _ => none
  | fuel + 1, t =>
    if !env.ex t && !env.stop t then tail_wait env fuel (t + 1)
    else if env.stop t then none
    else some t

/-- The `while not stop_event.is_set()` read loop of `tail_file`: each cycle
checks the stop flag once, then either emits the next complete line
immediately (no sleep) or sleeps one polling interval.  Returns the list of
emissions as (cycle, line index) pairs; `fuel` is the observation window. -/
def tail_loop (env : TailEnv) : Nat → Nat → Nat → List (Nat × Nat)
  | 0, _, _ => []
  | fuel + 1, t, pos =>
    if env.stop t then []
    else if pos < env.lineCount t then
      (t, pos) :: tail_loop env fuel (t + 1) (pos + 1)
    else tail_loop env fuel (t + 1) pos

/-- One emitted console line: `sys.stdout.write(f"[{...}] {...}")` writes the
source tag and the line as a single atomic string. -/
def fmtLine (tag : String) (env : TailEnv) (i : Nat) : String :=
  "[" ++ tag ++ "] " ++ env.lineAt i

/-- Model of `tail_file` from `start.py`: wait for the file (or stop), then open it and
`seek(0, os.SEEK_END)` — so the start position is the number of lines present
at the attach cycle — then run the read loop. -/
def tail_file (env : TailEnv) (tag : String) (fuel1 fuel2 : Nat) :
    List String :=
  match tail_wait env fuel1 0 with
  | none => []
  | some t =>
    (tail_loop env fuel2 t (env.lineCount t)).map (fun e => fmtLine tag env e.2)

/-- A sink that exists from the start, never stops, and grows to two lines. -/
def quietSink : TailEnv :=
  ⟨fun _ => true, fun _ => false, fun t => min t 2,
    fun i => "line " ++ Nat.repr i ++ "\n"⟩

/-- A sink whose stop flag is set from cycle 3 on. -/
def stoppingSink : TailEnv :=
  ⟨fun _ => true, fun u => decide (3 ≤ u), fun _ => 10, fun _ => "x\n"⟩

/-- One `subprocess.Popen` handle at the moment the signal handler fires:
whether `poll()` currently reports it running, and whether it will have
exited by the end of the 1-second grace sleep after a graceful request. -/
structure SupProc where
  alive : Bool
  diesInGrace : Bool
deriving DecidableEq

/-- Externally visible steps of the `handle_signal` closure: setting the stop
event, the `proc.terminate()` call on the i-th process (and the SIGTERM it
delivers when the process has not already exited), the 1-second grace sleep,
the `proc.poll()` check, and the `proc.kill()` SIGKILL delivery. -/
inductive SEvent
  | flagSet
  | termCall (i : Nat)
  | sigtermSent (i : Nat)
  | graceSleep
  | pollCall (i : Nat)
  | sigkillSent (i : Nat)
deriving DecidableEq

/-- Shared supervisor state seen by the signal handler: the stop event and
the list of processes started this run. -/
structure SupState where
  flag : Bool
  procs : List SupProc
deriving DecidableEq

/-- Placeholder process for out-of-range `getD` lookups. -/
def defaultProc : SupProc := ⟨false, false⟩

/-- The `for proc in processes: proc.terminate()` loop:
`Popen.send_signal` polls first and delivers SIGTERM only when the process
has not already exited. -/
def termPhase (procs : List SupProc) : List SEvent :=
  (List.range procs.length).flatMap (fun i =>
    SEvent.termCall i ::
      (if (procs.getD i defaultProc).alive then [SEvent.sigtermSent i] else []))

/-- Effect of the 1-second grace sleep on one process. -/
def afterGrace (p : SupProc) : SupProc :=
  { p with alive := p.alive && !p.diesInGrace }

/-- The `for proc in processes: if proc.poll() is None: proc.kill()` loop. -/
def killPhase (procs : List SupProc) : List SEvent :=
  (List.range procs.length).flatMap (fun i =>
    SEvent.pollCall i ::
      (if (procs.getD i defaultProc).alive then [SEvent.sigkillSent i] else []))

/-- Model of `handle_signal` from `start.py`: set the stop event, request a graceful
stop of every process started this run, sleep the 1-second grace period, and
SIGKILL exactly those that `poll()` still reports running; a killed process
is no longer alive afterwards.  Returns the new state and the event trace. -/
def handle_signal (s : SupState) : SupState × List SEvent :=
  let procs1 := s.procs.map afterGrace
  let procs2 := procs1.map (fun p => { p with alive := false })
  (⟨true, procs2⟩,
    SEvent.flagSet :: (termPhase s.procs ++ SEvent.graceSleep :: killPhase procs1))

/-- A run with three processes: one that exits during the grace period, one
that ignores SIGTERM, and one that has already exited. -/
def threeProcs : SupState :=
  ⟨false, [⟨true, true⟩, ⟨true, false⟩, ⟨false, false⟩]⟩

/-- Configuration state read by `main` before anything is spawned: existence
of `website/.env.local` and of the `configs/local/.env.local` fallback, the
parsed key-value contents of `website/.env.local` and of
`docker/convex/.env` (their parsing is an external collaborator), and
existence of `node0.yaml` in the validator config directory. -/
structure MainCfg where
  website_env_local_exists : Bool
  configs_fallback_exists : Bool
  website_env : List (String × String)
  convex_env : List (String × String)
  node0_yaml_exists : Bool

/-- Externally visible steps of `main` up to and including process start:
the startup cleanup calls, opaque external commands (`docker compose`,
`npx convex ...`), each `subprocess.Popen` spawn of a managed process, and
each marker-file write. -/
inductive MainEvent
  | cleanupPidfile (name : String)
  | cleanupPattern (pat : String)
  | externalRun (what : String)
  | spawned (name : String)
  | markerWritten (name : String)
deriving DecidableEq

/-- Model of `dict.get(key, "")` on a parsed env mapping. -/
def envGet (d : List (String × String)) (k : String) : String :=
  ((d.lookup k).getD "")

/-- The cleanup prologue of `main`: `kill_pidfile` for the three services and
`kill_by_pattern` for the six patterns, in source order.  These delete marker
files but never create one. -/
def cleanupEvents : List MainEvent :=
  [.cleanupPidfile "website", .cleanupPidfile "network", .cleanupPidfile "auth",
   .cleanupPattern "nullspace-simulator", .cleanupPattern "nullspace-node",
   .cleanupPattern "start-local-network.sh", .cleanupPattern "tsx src/server.ts",
   .cleanupPattern "node .*vite", .cleanupPattern "vite"]

/-- The spawn epilogue of `main` once validation passed: the external Convex
commands, then `start_process` for network, auth and website — each spawn
followed by its marker-file write (`PIDS[name].write_text(...)`). -/
def spawnEvents : List MainEvent :=
  [.externalRun "docker compose up",
   .externalRun "npx convex env set CONVEX_SERVICE_TOKEN",
   .externalRun "npx convex env set STRIPE_SECRET_KEY",
   .externalRun "npx convex env set STRIPE_WEBHOOK_SECRET",
   .externalRun "npx convex dev --once",
   .spawned "network", .markerWritten "network",
   .spawned "auth", .markerWritten "auth",
   .spawned "website", .markerWritten "website"]

/-- The configuration gate of `main` in `start.py`: after the cleanup
prologue, `ensure_website_env_local` exits when neither env file exists;
then each required key (falsy when missing, since `.get(k, "")` yields an
empty string) causes `return 1` before anything is spawned; the validator
config must exist; only then are the managed processes started.  Returns the
exit code and the event trace (external commands modelled as succeeding). -/
def main_model (cfg : MainCfg) : Int × List MainEvent :=
  if cfg.website_env_local_exists = false ∧ cfg.configs_fallback_exists = false then
    (1, cleanupEvents)
  else if envGet cfg.website_env "VITE_IDENTITY" = "" then
    (1, cleanupEvents)
  else if envGet cfg.website_env "CONVEX_SELF_HOSTED_URL" = "" ∨
      envGet cfg.website_env "CONVEX_SELF_HOSTED_ADMIN_KEY" = "" then
    (1, cleanupEvents)
  else if envGet cfg.convex_env "CONVEX_SERVICE_TOKEN" = "" ∨
      envGet cfg.convex_env "STRIPE_SECRET_KEY" = "" ∨
      envGet cfg.convex_env "STRIPE_WEBHOOK_SECRET" = "" then
    (1, cleanupEvents)
  else if cfg.node0_yaml_exists = false then
    (1, cleanupEvents)
  else
    (0, cleanupEvents ++ spawnEvents)

/-- A configuration whose env files exist but hold no keys. -/
def emptyCfg : MainCfg :=
  ⟨true, true, [], [], true⟩

theorem runTrace_consEvent (e : Event)
    (r : Except (List Event) (List Event)) :
    runTrace (consEvent e r) = e :: runTrace r := by
  cases r <;> rfl

theorem termLoop_all_alive (K : Kernel) (pid : Int)
    (hk : K.killSend pid = SendResult.delivered) :
    ∀ (fuel i : Nat),
      (∀ j, i ≤ j → j < i + fuel → pid_exists (K.probeAt pid j) = true) →
      termLoop K pid i fuel =
        Except.ok (List.replicate fuel (Event.probe pid) ++
          [Event.sigkill pid]) := by
  intro fuel
  induction fuel with
  | zero => intro i _; simp [termLoop, hk]
  | succ n ih =>
    intro i h
    have hi : pid_exists (K.probeAt pid i) = true :=
      h i le_rfl (by omega)
    have hrest := ih (i + 1) (fun j hj1 hj2 => h j (by omega) (by omega))
    simp [termLoop, hi, hrest, consEvent, List.replicate_succ]

theorem sigkill_mem_termLoop (K : Kernel) (pid : Int) :
    ∀ (fuel i : Nat), Event.sigkill pid ∈ runTrace (termLoop K pid i fuel) →
      K.killSend pid = SendResult.delivered ∧
      ∀ j, i ≤ j → j < i + fuel → pid_exists (K.probeAt pid j) = true := by
  intro fuel
  induction fuel with
  | zero =>
    intro i h
    simp only [termLoop] at h
    cases hk : K.killSend pid with
    | delivered => exact ⟨rfl, fun j hj1 hj2 => by omega⟩
    | noSuchProcess => rw [hk] at h; simp [runTrace] at h
    | permissionDenied => rw [hk] at h; simp [runTrace] at h
  | succ n ih =>
    intro i h
    simp only [termLoop] at h
    by_cases hi : pid_exists (K.probeAt pid i) = true
    · rw [if_pos hi, runTrace_consEvent] at h
      rcases List.mem_cons.mp h with heq | h
      · cases heq
      · obtain ⟨hk, hall⟩ := ih (i + 1) h
        refine ⟨hk, fun j hj1 hj2 => ?_⟩
        rcases Nat.eq_or_lt_of_le hj1 with rfl | hj
        · exact hi
        · exact hall j (by omega) (by omega)
    · rw [if_neg hi] at h
      simp [runTrace] at h

theorem sigterm_not_mem_termLoop (K : Kernel) (pid : Int) :
    ∀ (fuel i : Nat), Event.sigterm pid ∉ runTrace (termLoop K pid i fuel) := by
  intro fuel
  induction fuel with
  | zero =>
    intro i h
    simp only [termLoop] at h
    cases hk : K.killSend pid with
    | delivered => rw [hk] at h; simp [runTrace] at h
    | noSuchProcess => rw [hk] at h; simp [runTrace] at h
    | permissionDenied => rw [hk] at h; simp [runTrace] at h
  | succ n ih =>
    intro i h
    simp only [termLoop] at h
    by_cases hi : pid_exists (K.probeAt pid i) = true
    · rw [if_pos hi, runTrace_consEvent] at h
      rcases List.mem_cons.mp h with heq | h
      · cases heq
      · exact ih (i + 1) h
    · rw [if_neg hi] at h
      simp [runTrace] at h

theorem terminate_pid_of_not_alive (K : Kernel) (pid : Int)
    (h : pid_exists (K.probeAt pid 0) = false) :
    terminate_pid K pid = Except.ok [Event.probe pid] := by
  simp [terminate_pid, h]

/-- C3: `terminate_pid` on a non-alive identifier is an idempotent no-op:
it performs the single liveness probe and returns normally with no signal
delivery; moreover a probe reporting `PermissionError` ("exists but access
denied") counts as alive, and `ProcessLookupError` as dead. -/
theorem terminate_pid_dead_noop :
    (∀ (K : Kernel) (pid : Int), pid_exists (K.probeAt pid 0) = false →
        terminate_pid K pid = Except.ok [Event.probe pid]) ∧
    pid_exists ProbeResult.permissionDenied = true ∧
    pid_exists ProbeResult.noSuchProcess = false :=
  ⟨terminate_pid_of_not_alive, rfl, rfl⟩

/-- Witness for C3 at a concrete kernel where pid 5 is dead. -/
theorem terminate_pid_dead_noop_witness :
    terminate_pid deadKernel 5 = Except.ok [Event.probe 5] :=
  terminate_pid_dead_noop.1 deadKernel 5 rfl

/-- C2: escalation protocol of `terminate_pid` for an identifier that is
alive at the initial probe: when the SIGTERM send is delivered it comes
first (probe, then SIGTERM, before anything else in the performed trace);
any SIGKILL in the performed trace is preceded by the SIGTERM (never the
reverse); the SIGKILL happens only when the process survived every poll
inside the timeout window; and when the process survives every poll and
both sends are delivered, the operation returns normally with exactly:
initial probe, SIGTERM, one probe per poll iteration, SIGKILL. -/
theorem terminate_pid_escalation (K : Kernel) (pid : Int)
    (h0 : pid_exists (K.probeAt pid 0) = true) :
    (K.termSend pid = SendResult.delivered →
      (runTrace (terminate_pid K pid)).take 2 =
        [Event.probe pid, Event.sigterm pid]) ∧
    (∀ l1 l2, runTrace (terminate_pid K pid) = l1 ++ Event.sigkill pid :: l2 →
      Event.sigterm pid ∈ l1) ∧
    (Event.sigkill pid ∈ runTrace (terminate_pid K pid) →
      ∀ j, 1 ≤ j → j ≤ K.polls pid → pid_exists (K.probeAt pid j) = true) ∧
    (K.termSend pid = SendResult.delivered →
      K.killSend pid = SendResult.delivered →
      (∀ j, 1 ≤ j → j ≤ K.polls pid → pid_exists (K.probeAt pid j) = true) →
      terminate_pid K pid =
        Except.ok (Event.probe pid :: Event.sigterm pid ::
          (List.replicate (K.polls pid) (Event.probe pid) ++
            [Event.sigkill pid]))) := by
  refine ⟨?_, ?_, ?_, ?_⟩
  · intro ht
    simp [terminate_pid, h0, ht, runTrace_consEvent]
  · intro l1 l2 heq
    rw [terminate_pid, if_pos h0] at heq
    cases htm : K.termSend pid with
    | noSuchProcess =>
      simp only [htm, runTrace] at heq
      exfalso
      have hmem : Event.sigkill pid ∈ [Event.probe pid] := by
        rw [heq]; simp
      simp at hmem
    | permissionDenied =>
      simp only [htm, runTrace] at heq
      exfalso
      have hmem : Event.sigkill pid ∈ [Event.probe pid] := by
        rw [heq]; simp
      simp at hmem
    | delivered =>
      simp only [htm, runTrace_consEvent] at heq
      match l1, heq with
      | [], h => exact absurd (List.head_eq_of_cons_eq h) (by simp)
      | [a], h =>
        exfalso
        have h2 := List.tail_eq_of_cons_eq h
        exact absurd (List.head_eq_of_cons_eq h2) (by simp)
      | a :: b :: l1', h =>
        have h2 := List.tail_eq_of_cons_eq h
        have hb := List.head_eq_of_cons_eq h2
        simp [← hb]
  · intro hmem j hj1 hj2
    rw [terminate_pid, if_pos h0] at hmem
    cases htm : K.termSend pid with
    | noSuchProcess =>
      simp only [htm, runTrace] at hmem
      simp at hmem
    | permissionDenied =>
      simp only [htm, runTrace] at hmem
      simp at hmem
    | delivered =>
      simp only [htm, runTrace_consEvent] at hmem
      rcases List.mem_cons.mp hmem with heq | hmem
      · cases heq
      · rcases List.mem_cons.mp hmem with heq | hmem
        · cases heq
        · have := (sigkill_mem_termLoop K pid (K.polls pid) 1 hmem).2
          exact this j hj1 (by omega)
  · intro ht hk hall
    rw [terminate_pid, if_pos h0]
    simp only [ht]
    rw [termLoop_all_alive K pid hk (K.polls pid) 1
      (fun j hj1 hj2 => hall j hj1 (by omega))]
    rfl

/-- Witness for C2 at a concrete kernel where pid 7 survives every probe:
the operation returns normally with trace probe, SIGTERM, two polls,
SIGKILL. -/
theorem terminate_pid_escalation_witness :
    terminate_pid stubbornKernel 7 =
      Except.ok [Event.probe 7, Event.sigterm 7, Event.probe 7,
        Event.probe 7, Event.sigkill 7] := by
  have h := (terminate_pid_escalation stubbornKernel 7 rfl).2.2.2 rfl rfl
    (fun j _ _ => rfl)
  simpa using h

/-- C4 counterexample: a marker file recording an identifier that exists but
is not signalable by this user — the liveness probe raises `PermissionError`
(counted alive, start.py:61-62), then `os.kill(pid, SIGTERM)` raises
`PermissionError`, which `terminate_pid` does not catch (it catches only
`ProcessLookupError`, start.py:68-71).  The exception propagates out of
`kill_pidfile` before `path.unlink()` (start.py:92), so the marker file
survives and the run aborts — refuting "deletes the marker file afterward
regardless of the termination outcome". -/
theorem kill_pidfile_marker_survives_on_permission_denied :
    kill_pidfile protectedKernel (some "99") =
      Except.error (some "99", [Event.probe 99]) := rfl

/-- C4 (amended): whenever the termination attempt does not raise an
uncaught exception, `kill_pidfile` on an existing marker file deletes the
marker afterward regardless of the termination outcome; malformed
(non-numeric) content is treated as an absent identifier (no probe, no
signal, no error); a dead recorded identifier causes no signal send — the
trace is just the single liveness probe; but in the sole raising case
(an uncaught `PermissionError` from the signal send), the exception
propagates before the unlink and the marker survives. -/
theorem kill_pidfile_clears_marker (K : Kernel) (text : String) :
    (∀ r, kill_pidfile K (some text) = Except.ok r → r.1 = none) ∧
    (∀ r, kill_pidfile K (some text) = Except.error r → r.1 = some text) ∧
    (parsePyInt text = none →
      kill_pidfile K (some text) = Except.ok (none, [])) ∧
    (∀ pid : Int, parsePyInt text = some pid → pid ≠ 0 →
      pid_exists (K.probeAt pid 0) = false →
      kill_pidfile K (some text) = Except.ok (none, [Event.probe pid])) := by
  refine ⟨?_, ?_, ?_, ?_⟩
  · intro r hr
    cases hp : parsePyInt text with
    | none =>
      simp only [kill_pidfile, hp] at hr
      cases hr
      rfl
    | some pid =>
      by_cases hz : pid = 0
      · simp only [kill_pidfile, hp, if_pos hz] at hr
        cases hr
        rfl
      · simp only [kill_pidfile, hp, if_neg hz] at hr
        cases hterm : terminate_pid K pid with
        | ok evs =>
          simp only [hterm] at hr
          cases hr
          rfl
        | error evs =>
          simp only [hterm] at hr
          exact Except.noConfusion hr
  · intro r hr
    cases hp : parsePyInt text with
    | none =>
      simp only [kill_pidfile, hp] at hr
      exact Except.noConfusion hr
    | some pid =>
      by_cases hz : pid = 0
      · simp only [kill_pidfile, hp, if_pos hz] at hr
        exact Except.noConfusion hr
      · simp only [kill_pidfile, hp, if_neg hz] at hr
        cases hterm : terminate_pid K pid with
        | ok evs =>
          simp only [hterm] at hr
          exact Except.noConfusion hr
        | error evs =>
          simp only [hterm] at hr
          cases hr
          rfl
  · intro hp
    simp only [kill_pidfile, hp]
  · intro pid hp hz hdead
    simp only [kill_pidfile, hp, if_neg hz,
      terminate_pid_of_not_alive K pid hdead]

/-- Witness for the amended C4: non-numeric content yields a normal return
with no events and the marker cleared; a dead identifier yields a normal
return with only the probe and the marker cleared. -/
theorem kill_pidfile_clears_marker_witness :
    kill_pidfile deadKernel (some "junk") = Except.ok (none, []) ∧
    kill_pidfile deadKernel (some " 99 ") =
      Except.ok (none, [Event.probe 99]) :=
  ⟨(kill_pidfile_clears_marker deadKernel "junk").2.2.1 (by decide),
   (kill_pidfile_clears_marker deadKernel " 99 ").2.2.2 99 (by decide)
     (by decide) rfl⟩

/-- C10: a marker file containing the text "0" parses successfully, but `0`
is falsy in Python (`if pid:`), so `kill_pidfile` performs no liveness probe
and delivers no signal — the event trace is empty — yet it still deletes the
marker file (returning normally, so the raising path is unreachable here). -/
theorem kill_pidfile_zero_identifier (K : Kernel) :
    parsePyInt "0" = some 0 ∧
    kill_pidfile K (some "0") = Except.ok (none, []) :=
  ⟨by decide, rfl⟩

/-- C1 counterexample: when the `pgrep` binary is absent, `subprocess.run`
raises `FileNotFoundError` even with `check=False`, and `kill_by_pattern`
does not catch it — the sweep aborts the run with an error (before any
event) instead of skipping silently. -/
theorem kill_by_pattern_raises_when_tool_missing :
    kill_by_pattern deadKernel PgrepResult.toolMissing = Except.error [] := rfl

/-- C1 (amended): when the listing tool is present but fails — it exits with
a nonzero return code, which also covers "no processes matched" — the sweep
skips silently: it terminates nothing and raises no error. -/
theorem kill_by_pattern_silent_on_nonzero (K : Kernel) (rc : Int)
    (out : String) (h : rc ≠ 0) :
    kill_by_pattern K (PgrepResult.ran rc out) = Except.ok [] := by
  simp [kill_by_pattern, h]

/-- Witness for the amended C1 at return code 1. -/
theorem kill_by_pattern_silent_on_nonzero_witness :
    kill_by_pattern deadKernel (PgrepResult.ran 1 "12 34") = Except.ok [] :=
  kill_by_pattern_silent_on_nonzero deadKernel 1 "12 34" (by decide)

theorem digit_digitChar :
    ∀ m, m < 10 → isPyDigit (Nat.digitChar m) = true ∧
      digitVal (Nat.digitChar m) = m := by decide

theorem digit_not_space (c : Char) (h : isPyDigit c = true) :
    isPySpace c = false := by
  have hne : ∀ d : Char, isPyDigit d = false → c ≠ d := by
    intro d hd heq
    rw [heq, hd] at h
    cases h
  have e1 : c ≠ ' ' := hne ' ' (by decide)
  have e2 : c ≠ '\t' := hne '\t' (by decide)
  have e3 : c ≠ '\n' := hne '\n' (by decide)
  have e4 : c ≠ '\r' := hne '\r' (by decide)
  have e5 : c ≠ '\x0b' := hne '\x0b' (by decide)
  have e6 : c ≠ '\x0c' := hne '\x0c' (by decide)
  simp [isPySpace, e1, e2, e3, e4, e5, e6]

theorem dropWhile_eq_self_of_all (p : Char → Bool) (cs : List Char)
    (h : ∀ c ∈ cs, p c = false) : List.dropWhile p cs = cs := by
  cases cs with
  | nil => rfl
  | cons c rest => simp [List.dropWhile_cons, h c (List.mem_cons_self c rest)]

theorem pyStrip_digits (cs : List Char)
    (h : ∀ c ∈ cs, isPyDigit c = true) : pyStrip cs = cs := by
  have hs : ∀ c ∈ cs, isPySpace c = false :=
    fun c hc => digit_not_space c (h c hc)
  rw [pyStrip, dropWhile_eq_self_of_all _ _ hs,
    dropWhile_eq_self_of_all _ _ (fun c hc => hs c (List.mem_reverse.mp hc)),
    List.reverse_reverse]

theorem toDigitsCore_digits :
    ∀ (fuel n : Nat) (ds : List Char),
      (∀ c ∈ ds, isPyDigit c = true) →
      ∀ c ∈ Nat.toDigitsCore 10 fuel n ds, isPyDigit c = true := by
  intro fuel
  induction fuel with
  | zero => intro n ds h; simpa [Nat.toDigitsCore] using h
  | succ m ih =>
    intro n ds h
    have hd : isPyDigit (Nat.digitChar (n % 10)) = true :=
      (digit_digitChar (n % 10) (by omega)).1
    have hcons : ∀ c ∈ Nat.digitChar (n % 10) :: ds, isPyDigit c = true := by
      intro c hc
      rcases List.mem_cons.mp hc with rfl | hc
      · exact hd
      · exact h c hc
    simp only [Nat.toDigitsCore]
    by_cases h10 : n / 10 = 0
    · simpa [h10] using hcons
    · simp only [if_neg h10]
      exact ih (n / 10) _ hcons

theorem toDigitsCore_ne_nil :
    ∀ (fuel n : Nat) (ds : List Char), ds ≠ [] →
      Nat.toDigitsCore 10 fuel n ds ≠ [] := by
  intro fuel
  induction fuel with
  | zero => intro n ds h; simpa [Nat.toDigitsCore] using h
  | succ m ih =>
    intro n ds h
    simp only [Nat.toDigitsCore]
    by_cases h10 : n / 10 = 0
    · simp [h10]
    · simp only [if_neg h10]
      exact ih (n / 10) _ (by simp)

theorem toDigits_ne_nil (n : Nat) : Nat.toDigits 10 n ≠ [] := by
  simp only [Nat.toDigits, Nat.toDigitsCore]
  by_cases h10 : n / 10 = 0
  · simp [h10]
  · simp only [if_neg h10]
    exact toDigitsCore_ne_nil n (n / 10) _ (by simp)

theorem digitsFold_toDigitsCore :
    ∀ (fuel n : Nat) (ds : List Char) (acc : Nat), n < 10 ^ fuel →
      ∃ e, digitsFold acc (Nat.toDigitsCore 10 fuel n ds) =
        digitsFold (acc * 10 ^ e + n) ds := by
  intro fuel
  induction fuel with
  | zero =>
    intro n ds acc h
    have hn : n = 0 := by omega
    exact ⟨0, by simp [hn, Nat.toDigitsCore]⟩
  | succ m ih =>
    intro n ds acc h
    have hdv : digitVal (Nat.digitChar (n % 10)) = n % 10 :=
      (digit_digitChar (n % 10) (by omega)).2
    simp only [Nat.toDigitsCore]
    by_cases h10 : n / 10 = 0
    · refine ⟨1, ?_⟩
      have hn : n % 10 = n := by omega
      simp only [if_pos h10]
      show digitsFold (acc * 10 + digitVal (Nat.digitChar (n % 10))) ds = _
      rw [hdv, hn, pow_one]
    · have hlt : n / 10 < 10 ^ m := by
        rw [Nat.div_lt_iff_lt_mul (by norm_num)]
        calc n < 10 ^ (m + 1) := h
          _ = 10 ^ m * 10 := by rw [pow_succ]
      obtain ⟨e, he⟩ := ih (n / 10) (Nat.digitChar (n % 10) :: ds) acc hlt
      refine ⟨e + 1, ?_⟩
      rw [if_neg h10, he]
      show digitsFold ((acc * 10 ^ e + n / 10) * 10 +
        digitVal (Nat.digitChar (n % 10))) ds = _
      rw [hdv]
      congr 1
      have hdm : n / 10 * 10 + n % 10 = n := by omega
      calc (acc * 10 ^ e + n / 10) * 10 + n % 10
          = acc * 10 ^ e * 10 + (n / 10 * 10 + n % 10) := by ring
        _ = acc * 10 ^ (e + 1) + n := by rw [hdm, pow_succ, ← mul_assoc]

theorem parseDigitsGo_digits :
    ∀ (cs : List Char) (acc : Nat), (∀ c ∈ cs, isPyDigit c = true) →
      parseDigitsGo cs acc = some (digitsFold acc cs) := by
  intro cs
  induction cs with
  | nil => intro acc _; rfl
  | cons c rest ih =>
    intro acc h
    have hc : isPyDigit c = true := h c (List.mem_cons_self c rest)
    have hne : c ≠ '_' := by
      intro heq
      rw [heq] at hc
      exact absurd hc (by decide)
    rw [parseDigitsGo.eq_def]
    simp only []
    rw [if_neg hne, if_pos hc,
      ih _ (fun x hx => h x (List.mem_cons_of_mem c hx))]
    rfl

theorem parseDigits_digits (c : Char) (rest : List Char)
    (hc : isPyDigit c = true) (h : ∀ x ∈ rest, isPyDigit x = true) :
    parseDigits (c :: rest) = some (digitsFold 0 (c :: rest)) := by
  rw [parseDigits, if_pos hc, parseDigitsGo_digits rest (digitVal c) h]
  show _ = some (digitsFold (0 * 10 + digitVal c) rest)
  rw [Nat.zero_mul, Nat.zero_add]

/-- C9: Registry round trip — recording a process identifier by writing the
marker file as decimal text (`str(proc.pid)` in `start_process`) and reading
it back with `int(text.strip())` (as `kill_pidfile` does) yields the same
identifier. -/
theorem pid_marker_roundtrip (pid : Nat) :
    readPidMarker (writePidMarker pid) = some (pid : Int) := by
  have hdata : (writePidMarker pid).data = Nat.toDigits 10 pid := rfl
  have hall : ∀ c ∈ Nat.toDigits 10 pid, isPyDigit c = true :=
    toDigitsCore_digits (pid + 1) pid [] (by intro c hc; cases hc)
  obtain ⟨c, rest, hcons⟩ := List.exists_cons_of_ne_nil (toDigits_ne_nil pid)
  have hc : isPyDigit c = true := hall c (by rw [hcons]; exact List.mem_cons_self c rest)
  have hrest : ∀ x ∈ rest, isPyDigit x = true :=
    fun x hx => hall x (by rw [hcons]; exact List.mem_cons_of_mem c hx)
  have hstrip : pyStrip (writePidMarker pid).data = c :: rest := by
    rw [hdata, pyStrip_digits _ hall, hcons]
  have hval : digitsFold 0 (Nat.toDigits 10 pid) = pid := by
    obtain ⟨e, he⟩ := digitsFold_toDigitsCore (pid + 1) pid [] 0
      (lt_of_lt_of_le (Nat.lt_pow_self (by norm_num) pid)
        (Nat.pow_le_pow_right (by norm_num) (Nat.le_succ pid)))
    simpa [Nat.toDigits, digitsFold] using he
  have hne1 : c ≠ '-' := by
    intro heq; rw [heq] at hc; exact absurd hc (by decide)
  have hne2 : c ≠ '+' := by
    intro heq; rw [heq] at hc; exact absurd hc (by decide)
  rw [readPidMarker, parsePyInt, hstrip]
  simp only [if_neg hne1, if_neg hne2]
  rw [parseDigits_digits c rest hc hrest, ← hcons, hval]
  simp

theorem tail_loop_range (env : TailEnv) :
    ∀ (fuel t pos : Nat), ∃ k,
      (tail_loop env fuel t pos).map Prod.snd = List.range' pos k := by
  intro fuel
  induction fuel with
  | zero => intro t pos; exact ⟨0, rfl⟩
  | succ n ih =>
    intro t pos
    by_cases hs : env.stop t = true
    · exact ⟨0, by simp [tail_loop, hs]⟩
    · by_cases hlt : pos < env.lineCount t
      · obtain ⟨k, hk⟩ := ih (t + 1) (pos + 1)
        refine ⟨k + 1, ?_⟩
        simp only [tail_loop, if_neg hs, if_pos hlt, List.map_cons, hk,
          List.range'_succ]
      · obtain ⟨k, hk⟩ := ih (t + 1) pos
        exact ⟨k, by simp only [tail_loop, if_neg hs, if_neg hlt, hk]⟩

theorem tail_loop_complete (env : TailEnv) (L T : Nat)
    (hstop : ∀ u, env.stop u = false)
    (hub : ∀ u, env.lineCount u ≤ L)
    (heq : ∀ u, T ≤ u → env.lineCount u = L) :
    ∀ (fuel t pos : Nat), pos ≤ L → (T - t) + (L - pos) ≤ fuel →
      (tail_loop env fuel t pos).map Prod.snd = List.range' pos (L - pos) := by
  intro fuel
  induction fuel with
  | zero =>
    intro t pos hpos hf
    have h1 : L - pos = 0 := by omega
    simp [tail_loop, h1]
  | succ n ih =>
    intro t pos hpos hf
    have hs : ¬env.stop t = true := by simp [hstop t]
    by_cases hlt : pos < env.lineCount t
    · have hposL : pos < L := lt_of_lt_of_le hlt (hub t)
      have hrec := ih (t + 1) (pos + 1) (by omega) (by omega)
      have hLp : L - pos = (L - (pos + 1)) + 1 := by omega
      simp only [tail_loop, if_neg hs, if_pos hlt, List.map_cons, hrec, hLp,
        List.range'_succ]
    · have hn : (T - (t + 1)) + (L - pos) ≤ n := by
        by_cases hT : T ≤ t
        · have h1 := heq t hT
          have h2 : pos = L := by omega
          omega
        · omega
      have hrec := ih (t + 1) pos hpos hn
      simp only [tail_loop, if_neg hs, if_neg hlt, hrec]

/-- C5: replay-free, in-order, exactly-once tailing.  Whatever the schedule:
if the tailer never attaches it emits nothing; if it attaches at cycle `t`
its emitted line indices form the contiguous range starting at the number of
lines present at attach time — so content written before attachment is never
emitted, nothing is duplicated or reordered, and every emission is a single
string carrying its source tag (atomic, never split or merged).  Moreover,
when the stop flag stays clear and the sink stabilizes at `L` lines by cycle
`T`, a large enough observation window emits exactly the lines appended
after attachment, each exactly once, in file order. -/
theorem tail_file_replay_free (env : TailEnv) (tag : String)
    (fuel1 fuel2 : Nat) :
    (tail_wait env fuel1 0 = none → tail_file env tag fuel1 fuel2 = []) ∧
    (∀ t, tail_wait env fuel1 0 = some t → ∃ k,
      (tail_loop env fuel2 t (env.lineCount t)).map Prod.snd =
        List.range' (env.lineCount t) k ∧
      tail_file env tag fuel1 fuel2 =
        (List.range' (env.lineCount t) k).map (fmtLine tag env)) ∧
    (∀ t T L, tail_wait env fuel1 0 = some t →
      (∀ u, env.stop u = false) → (∀ u, env.lineCount u ≤ L) →
      (∀ u, T ≤ u → env.lineCount u = L) →
      (T - t) + (L - env.lineCount t) ≤ fuel2 →
      tail_file env tag fuel1 fuel2 =
        (List.range' (env.lineCount t) (L - env.lineCount t)).map
          (fmtLine tag env)) := by
  refine ⟨?_, ?_, ?_⟩
  · intro h
    simp [tail_file, h]
  · intro t hatt
    obtain ⟨k, hk⟩ := tail_loop_range env fuel2 t (env.lineCount t)
    refine ⟨k, hk, ?_⟩
    simp only [tail_file, hatt, ← hk, List.map_map]
    rfl
  · intro t T L hatt hstop hub heq hfuel
    have h := tail_loop_complete env L T hstop hub heq fuel2 t
      (env.lineCount t) (hub t) hfuel
    simp only [tail_file, hatt, ← h, List.map_map]
    rfl

/-- Witness for C5: a sink growing to two lines after attachment at cycle 0
yields exactly those two lines, tagged and in order. -/
theorem tail_file_replay_free_witness :
    tail_file quietSink "auth" 1 4 =
      [fmtLine "auth" quietSink 0, fmtLine "auth" quietSink 1] := by
  have h := (tail_file_replay_free quietSink "auth" 1 4).2.2 0 2 2 rfl
    (fun _ => rfl) (fun u => Nat.min_le_right u 2)
    (fun u hu => Nat.min_eq_right hu) (by decide)
  refine h.trans ?_
  rfl

theorem tail_loop_emits_before_flag (env : TailEnv) (T : Nat)
    (hT : ∀ u, T ≤ u → env.stop u = true) :
    ∀ (fuel t pos : Nat), ∀ e ∈ tail_loop env fuel t pos,
      e.1 < T ∧ env.stop e.1 = false := by
  intro fuel
  induction fuel with
  | zero =>
    intro t pos e he
    simp [tail_loop] at he
  | succ n ih =>
    intro t pos e he
    by_cases hs : env.stop t = true
    · simp [tail_loop, hs] at he
    · simp only [tail_loop, if_neg hs] at he
      by_cases hlt : pos < env.lineCount t
      · rw [if_pos hlt] at he
        rcases List.mem_cons.mp he with rfl | he
        · have hst : env.stop t = false := by simpa using hs
          have htT : t < T := by
            by_contra hge
            exact hs (hT t (by omega))
          exact ⟨htT, hst⟩
        · exact ih (t + 1) (pos + 1) e he
      · rw [if_neg hlt] at he
        exact ih (t + 1) pos e he

/-- C8: shutdown latency of the tailer.  The stop flag is checked once per
poll cycle: if it is set when a cycle begins, the read loop terminates with
no further emission, and the wait loop returns without attaching; and every
emission of the read loop happens at a cycle where the flag was still clear
— so once the flag is set (from cycle `T` on) the tailer never emits again:
the flag is never left unobserved for longer than one polling interval. -/
theorem tailer_stops_on_flag (env : TailEnv) (fuel t pos T : Nat)
    (hT : ∀ u, T ≤ u → env.stop u = true) :
    (env.stop t = true → tail_loop env fuel t pos = []) ∧
    (env.stop t = true → tail_wait env fuel t = none) ∧
    (∀ e ∈ tail_loop env fuel t pos, e.1 < T ∧ env.stop e.1 = false) := by
  refine ⟨?_, ?_, tail_loop_emits_before_flag env T hT fuel t pos⟩
  · intro h
    cases fuel with
    | zero => rfl
    | succ n => simp [tail_loop, h]
  · intro h
    cases fuel with
    | zero => rfl
    | succ n => simp [tail_wait, h]

/-- Witness for C8: with the flag set from cycle 3 on, a loop and a wait
starting at cycle 3 observe it immediately and produce nothing. -/
theorem tailer_stops_on_flag_witness :
    tail_loop stoppingSink 5 3 0 = [] ∧ tail_wait stoppingSink 5 3 = none := by
  have h := tailer_stops_on_flag stoppingSink 5 3 0 3
    (fun u hu => decide_eq_true hu)
  exact ⟨h.1 (by decide), h.2.1 (by decide)⟩

theorem termCall_mem_termPhase (procs : List SupProc) (i : Nat) :
    SEvent.termCall i ∈ termPhase procs ↔ i < procs.length := by
  simp only [termPhase, List.mem_flatMap, List.mem_range, List.mem_cons]
  constructor
  · rintro ⟨j, hj, heq | hmem⟩
    · injection heq with h
      omega
    · exfalso
      cases ha : (procs.getD j defaultProc).alive with
      | true => rw [if_pos ha] at hmem; simp at hmem
      | false => rw [if_neg (by rw [ha]; simp)] at hmem; cases hmem
  · intro hi
    exact ⟨i, hi, Or.inl rfl⟩

theorem sigtermSent_mem_termPhase (procs : List SupProc) (i : Nat) :
    SEvent.sigtermSent i ∈ termPhase procs ↔
      i < procs.length ∧ (procs.getD i defaultProc).alive = true := by
  simp only [termPhase, List.mem_flatMap, List.mem_range, List.mem_cons]
  constructor
  · rintro ⟨j, hj, heq | hmem⟩
    · cases heq
    · cases ha : (procs.getD j defaultProc).alive with
      | true =>
        rw [if_pos ha] at hmem
        rcases List.mem_singleton.mp hmem with heq
        injection heq with h
        subst h
        exact ⟨hj, ha⟩
      | false =>
        rw [if_neg (by rw [ha]; simp)] at hmem
        cases hmem
  · rintro ⟨hi, ha⟩
    exact ⟨i, hi, Or.inr (by rw [if_pos ha]; exact List.mem_singleton.mpr rfl)⟩

theorem termCall_not_mem_killPhase (procs : List SupProc) (i : Nat) :
    SEvent.termCall i ∉ killPhase procs := by
  simp only [killPhase, List.mem_flatMap, List.mem_range, List.mem_cons]
  rintro ⟨j, _, heq | hmem⟩
  · cases heq
  · cases ha : (procs.getD j defaultProc).alive with
    | true => rw [if_pos ha] at hmem; rcases List.mem_singleton.mp hmem with heq; cases heq
    | false => rw [if_neg (by rw [ha]; simp)] at hmem; cases hmem

theorem sigkillSent_mem_killPhase (procs : List SupProc) (i : Nat) :
    SEvent.sigkillSent i ∈ killPhase procs ↔
      i < procs.length ∧ (procs.getD i defaultProc).alive = true := by
  simp only [killPhase, List.mem_flatMap, List.mem_range, List.mem_cons]
  constructor
  · rintro ⟨j, hj, heq | hmem⟩
    · cases heq
    · cases ha : (procs.getD j defaultProc).alive with
      | true =>
        rw [if_pos ha] at hmem
        rcases List.mem_singleton.mp hmem with heq
        injection heq with h
        subst h
        exact ⟨hj, ha⟩
      | false =>
        rw [if_neg (by rw [ha]; simp)] at hmem
        cases hmem
  · rintro ⟨hi, ha⟩
    exact ⟨i, hi, Or.inr (by rw [if_pos ha]; exact List.mem_singleton.mpr rfl)⟩

theorem sigkillSent_not_mem_termPhase (procs : List SupProc) (i : Nat) :
    SEvent.sigkillSent i ∉ termPhase procs := by
  simp only [termPhase, List.mem_flatMap, List.mem_range, List.mem_cons]
  rintro ⟨j, _, heq | hmem⟩
  · cases heq
  · cases ha : (procs.getD j defaultProc).alive with
    | true => rw [if_pos ha] at hmem; rcases List.mem_singleton.mp hmem with heq; cases heq
    | false => rw [if_neg (by rw [ha]; simp)] at hmem; cases hmem

theorem sigtermSent_not_mem_killPhase (procs : List SupProc) (i : Nat) :
    SEvent.sigtermSent i ∉ killPhase procs := by
  simp only [killPhase, List.mem_flatMap, List.mem_range, List.mem_cons]
  rintro ⟨j, _, heq | hmem⟩
  · cases heq
  · cases ha : (procs.getD j defaultProc).alive with
    | true => rw [if_pos ha] at hmem; rcases List.mem_singleton.mp hmem with heq; cases heq
    | false => rw [if_neg (by rw [ha]; simp)] at hmem; cases hmem

theorem getD_map_of_lt (procs : List SupProc) (f : SupProc → SupProc) :
    ∀ i, i < procs.length →
      (procs.map f).getD i defaultProc = f (procs.getD i defaultProc) := by
  induction procs with
  | nil => intro i h; simp at h
  | cons p ps ih =>
    intro i h
    cases i with
    | zero => rfl
    | succ j =>
      have hj : j < ps.length := by simpa using h
      simpa [List.getD_cons_succ] using ih j hj

theorem deadProcs_fixed (l : List SupProc) :
    ((l.map (fun p => { p with alive := false })).map afterGrace).map
        (fun p => { p with alive := false }) =
      l.map (fun p => { p with alive := false }) := by
  induction l with
  | nil => rfl
  | cons p ps ih => simp [afterGrace, ih]

theorem deadProcs_alive_false (l : List SupProc) (i : Nat)
    (h : i < l.length) :
    ((l.map (fun p => { p with alive := false })).getD i defaultProc).alive
      = false := by
  rw [getD_map_of_lt l _ i h]

/-- C6: on a termination-signal trigger, `handle_signal` sets the shared stop
flag, calls `terminate()` on every process started this run (a graceful-stop
request; the SIGTERM is delivered exactly to those not already exited),
sleeps the fixed 1-second grace period, and SIGKILLs exactly those processes
that the non-blocking `poll()` still reports running after the grace period;
running the handler a second time from the resulting state is a no-op beyond
re-setting the already-set flag — the state is unchanged and no signal is
delivered — so a second trigger cannot crash or double-free. -/
theorem handle_signal_spec (s : SupState) :
    (handle_signal s).1.flag = true ∧
    (∀ i, SEvent.termCall i ∈ (handle_signal s).2 ↔ i < s.procs.length) ∧
    (∀ i, SEvent.sigkillSent i ∈ (handle_signal s).2 ↔
      (i < s.procs.length ∧ (s.procs.getD i defaultProc).alive = true ∧
        (s.procs.getD i defaultProc).diesInGrace = false)) ∧
    (handle_signal (handle_signal s).1).1 = (handle_signal s).1 ∧
    (∀ i, SEvent.sigtermSent i ∉ (handle_signal (handle_signal s).1).2 ∧
      SEvent.sigkillSent i ∉ (handle_signal (handle_signal s).1).2) := by
  refine ⟨rfl, ?_, ?_, ?_, ?_⟩
  · intro i
    simp only [handle_signal, List.mem_cons, List.mem_append]
    constructor
    · rintro (heq | hmem | heq | hmem)
      · cases heq
      · exact (termCall_mem_termPhase s.procs i).mp hmem
      · cases heq
      · exact absurd hmem (termCall_not_mem_killPhase _ i)
    · intro hi
      exact Or.inr (Or.inl ((termCall_mem_termPhase s.procs i).mpr hi))
  · intro i
    simp only [handle_signal, List.mem_cons, List.mem_append]
    constructor
    · rintro (heq | hmem | heq | hmem)
      · cases heq
      · exact absurd hmem (sigkillSent_not_mem_termPhase _ i)
      · cases heq
      · obtain ⟨hi, ha⟩ := (sigkillSent_mem_killPhase _ i).mp hmem
        have hlen : i < s.procs.length := by simpa using hi
        rw [getD_map_of_lt s.procs afterGrace i hlen] at ha
        simp only [afterGrace, Bool.and_eq_true, Bool.not_eq_true'] at ha
        exact ⟨hlen, ha.1, ha.2⟩
    · rintro ⟨hi, ha, hd⟩
      refine Or.inr (Or.inr (Or.inr ((sigkillSent_mem_killPhase _ i).mpr
        ⟨by simpa using hi, ?_⟩)))
      rw [getD_map_of_lt s.procs afterGrace i hi]
      simp only [afterGrace]
      rw [ha, hd]
      rfl
  · simp only [handle_signal]
    rw [deadProcs_fixed (s.procs.map afterGrace)]
  · intro i
    constructor
    · intro hmem
      simp only [handle_signal, List.mem_cons, List.mem_append] at hmem
      rcases hmem with heq | hmem | heq | hmem
      · cases heq
      · obtain ⟨hi, ha⟩ := (sigtermSent_mem_termPhase _ i).mp hmem
        have hlen : i < (s.procs.map afterGrace).length := by simpa using hi
        rw [deadProcs_alive_false (s.procs.map afterGrace) i hlen] at ha
        cases ha
      · cases heq
      · exact absurd hmem (sigtermSent_not_mem_killPhase _ i)
    · intro hmem
      simp only [handle_signal, List.mem_cons, List.mem_append] at hmem
      rcases hmem with heq | hmem | heq | hmem
      · cases heq
      · exact absurd hmem (sigkillSent_not_mem_termPhase _ i)
      · cases heq
      · obtain ⟨hi, ha⟩ := (sigkillSent_mem_killPhase _ i).mp hmem
        have hlenB : i < ((s.procs.map afterGrace).map
            (fun p => { p with alive := false })).length := by simpa using hi
        rw [getD_map_of_lt _ afterGrace i hlenB] at ha
        simp only [afterGrace, Bool.and_eq_true] at ha
        rw [deadProcs_alive_false (s.procs.map afterGrace) i
          (by simpa using hlenB)] at ha
        exact absurd ha.1 (by simp)

/-- Witness for C6 on a run with three processes (one exiting during grace,
one ignoring SIGTERM, one already exited): the flag is set, every process
receives the graceful request, exactly the SIGTERM-ignoring process is
force-killed, and a second trigger leaves the state unchanged and delivers
nothing. -/
theorem handle_signal_spec_witness :
    (handle_signal threeProcs).1.flag = true ∧
    SEvent.termCall 2 ∈ (handle_signal threeProcs).2 ∧
    SEvent.sigkillSent 1 ∈ (handle_signal threeProcs).2 ∧
    (handle_signal (handle_signal threeProcs).1).1 =
      (handle_signal threeProcs).1 ∧
    SEvent.sigkillSent 1 ∉ (handle_signal (handle_signal threeProcs).1).2 := by
  have h := handle_signal_spec threeProcs
  exact ⟨h.1, (h.2.1 2).mpr (by decide), (h.2.2.1 1).mpr (by decide),
    h.2.2.2.1, (h.2.2.2.2 1).2⟩

/-- C7: fail-fast configuration gate of `main`.  Whenever one of the required
keys — VITE_IDENTITY, CONVEX_SELF_HOSTED_URL, CONVEX_SELF_HOSTED_ADMIN_KEY
(in `website/.env.local`), CONVEX_SERVICE_TOKEN, STRIPE_SECRET_KEY,
STRIPE_WEBHOOK_SECRET (in `docker/convex/.env`) — is absent (empty via
`.get(k, "")`), or the validator config `node0.yaml` is missing, `main`
returns a non-zero exit code, no managed process is spawned and no marker
file is written. -/
theorem main_fail_fast (cfg : MainCfg)
    (h : envGet cfg.website_env "VITE_IDENTITY" = "" ∨
         envGet cfg.website_env "CONVEX_SELF_HOSTED_URL" = "" ∨
         envGet cfg.website_env "CONVEX_SELF_HOSTED_ADMIN_KEY" = "" ∨
         envGet cfg.convex_env "CONVEX_SERVICE_TOKEN" = "" ∨
         envGet cfg.convex_env "STRIPE_SECRET_KEY" = "" ∨
         envGet cfg.convex_env "STRIPE_WEBHOOK_SECRET" = "" ∨
         cfg.node0_yaml_exists = false) :
    (main_model cfg).1 ≠ 0 ∧
    ∀ name, MainEvent.spawned name ∉ (main_model cfg).2 ∧
      MainEvent.markerWritten name ∉ (main_model cfg).2 := by
  have hclean : ∀ name, MainEvent.spawned name ∉ cleanupEvents ∧
      MainEvent.markerWritten name ∉ cleanupEvents := by
    intro name
    constructor <;>
      · intro hmem
        simp only [cleanupEvents, List.mem_cons, List.not_mem_nil] at hmem
        rcases hmem with h1 | h1 | h1 | h1 | h1 | h1 | h1 | h1 | h1 | h1 <;>
          cases h1
  unfold main_model
  split_ifs with h1 h2 h3 h4 h5
  · exact ⟨by decide, hclean⟩
  · exact ⟨by decide, hclean⟩
  · exact ⟨by decide, hclean⟩
  · exact ⟨by decide, hclean⟩
  · exact ⟨by decide, hclean⟩
  · exfalso
    push_neg at h3 h4
    rcases h with h | h | h | h | h | h | h
    · exact h2 h
    · exact h3.1 h
    · exact h3.2 h
    · exact h4.1 h
    · exact h4.2.1 h
    · exact h4.2.2 h
    · exact h5 h

/-- Witness for C7: both env files exist but are empty, so VITE_IDENTITY is
missing; the exit code is non-zero and the network service is neither
spawned nor recorded. -/
theorem main_fail_fast_witness :
    (main_model emptyCfg).1 ≠ 0 ∧
    MainEvent.spawned "network" ∉ (main_model emptyCfg).2 ∧
    MainEvent.markerWritten "network" ∉ (main_model emptyCfg).2 :=
  ⟨(main_fail_fast emptyCfg (Or.inl rfl)).1,
   (main_fail_fast emptyCfg (Or.inl rfl)).2 "network"⟩

end Nullspace
